import Mathlib

/-!
The `Fail2Ban` request matcher of caddy-fail2ban.

A shallow embedding of `fail2ban.go`: the matcher `Fail2Ban.Match`, the
provisioning step `Fail2Ban.Provision` and the Caddyfile entry point
`Fail2Ban.UnmarshalCaddyfile`.

Modelling conventions.

* Go strings are modelled by Lean strings.  Every delimiter the code looks at
  (`:`, `[`, `]`, `-`, ASCII letters) is a single byte, so indexing by
  character agrees with Go's indexing by byte on valid UTF-8 text.
* `http.Header` is a map from keys to value lists; it is modelled by an
  association list read through `List.lookup`.
* The `Banlist` type lives in a file that is not part of the sources at hand.
  Its operations (`NewBanlist`, `Start`, `IsBanned`) are taken as parameters,
  so every statement holds for every implementation of them.
* `net.SplitHostPort` is a parameter of `Match` as well; `SplitHostPort` below
  is the Go standard library's function, used for concrete requests.
* The module is embedded in its operating state: `logger` is the non-nil
  logger that `Provision` stored.  `Match` returns its verdict together with
  the log calls it makes, in order.
-/

set_option autoImplicit false

namespace caddy_fail2ban

/-! ## Logging (`go.uber.org/zap`) -/

/-- Severity of a log call. -/
inductive Level where
  | debug
  | info
  | error
  deriving DecidableEq, Repr

/-- One call on the logger: level, message and the structured fields. -/
structure Entry where
  level : Level
  msg : String
  fields : List (String × String)
  deriving DecidableEq, Repr

/-- A zap logger handle, identified by its name. -/
structure Logger where
  name : String
  deriving DecidableEq, Repr

/-! ## `net/http` and `net/textproto` -/

/-- Go's `http.Header`, a `map[string][]string`. -/
abbrev Header := List (String × List String)

/-- The part of `http.Request` the matcher reads. -/
structure Request where
  Header : Header
  RemoteAddr : String
  deriving DecidableEq, Repr

/-- Go's `textproto.validHeaderFieldByte`: the token characters of RFC 7230. -/
def validHeaderFieldByte (c : Char) : Bool :=
  let n := c.toNat
  (48 ≤ n ∧ n ≤ 57) || (65 ≤ n ∧ n ≤ 90) || (97 ≤ n ∧ n ≤ 122) ||
    n ∈ [33, 35, 36, 37, 38, 39, 42, 43, 45, 46, 94, 95, 96, 124, 126]

/-- The canonicalising pass of Go's `textproto.canonicalMIMEHeaderKey`:
first letter upper case, upper case after each dash, lower case elsewhere. -/
def canonicalizeLoop : Bool → List Char → List Char
  | _, [] => []
  | upper, c :: cs =>
    let c1 :=
      if upper ∧ 97 ≤ c.toNat ∧ c.toNat ≤ 122 then Char.ofNat (c.toNat - 32)
      else if ¬ upper ∧ 65 ≤ c.toNat ∧ c.toNat ≤ 90 then Char.ofNat (c.toNat + 32)
      else c
    c1 :: canonicalizeLoop (c1 = '-') cs

/-- Go's `textproto.canonicalMIMEHeaderKey`: a key with a byte that is not a
token character (a space included) is returned unchanged. -/
def canonicalMIMEHeaderKey (a : List Char) : List Char :=
  if a.all validHeaderFieldByte then canonicalizeLoop true a else a

/-- Go's `textproto.CanonicalMIMEHeaderKey`. -/
def CanonicalMIMEHeaderKey (s : String) : String :=
  String.mk (canonicalMIMEHeaderKey s.data)

/-- Go's `Header.Get`: the first value stored under the canonical form of
`key`, the empty string when there is none. -/
def Header.Get (h : Header) (key : String) : String :=
  match h.lookup (CanonicalMIMEHeaderKey key) with
  | some (v :: _) => v
  | _ => ""

/-- Go's two-valued map index `_, ok := h[key]`: whether `key` is in the map. -/
def Header.has (h : Header) (key : String) : Bool :=
  (h.lookup key).isSome

/-! ## `net.SplitHostPort` -/

/-- Go's `bytealg.IndexByteString`: index of the first `c`, `-1` if absent. -/
def IndexByteString : List Char → Char → Int
  | [], _ => -1
  | x :: xs, c =>
    if x = c then 0
    else
      let r := IndexByteString xs c
      if r < 0 then -1 else r + 1

/-- Go's `bytealg.LastIndexByteString`: index of the last `c`, `-1` if absent. -/
def LastIndexByteString : List Char → Char → Int
  | [], _ => -1
  | x :: xs, c =>
    let r := LastIndexByteString xs c
    if r < 0 then (if x = c then 0 else -1) else r + 1

/-- Go's slice expression `s[lo:hi]`. -/
def slice (s : List Char) (lo hi : Int) : List Char :=
  (s.drop lo.toNat).take (hi.toNat - lo.toNat)

/-- Go's `net.AddrError`. -/
structure AddrError where
  Err : String
  Addr : String
  deriving DecidableEq, Repr

/-- Go's `AddrError.Error`. -/
def AddrError.Error (e : AddrError) : String :=
  if e.Addr ≠ "" then "address " ++ e.Addr ++ ": " ++ e.Err else e.Err

/-- Go's `net.SplitHostPort`: `host:port`, `[host]:port` or an error. -/
def SplitHostPort (hostport : String) : Except AddrError (String × String) :=
  let s := hostport.data
  let addrErr (why : String) : Except AddrError (String × String) :=
    .error { Err := why, Addr := hostport }
  let i := LastIndexByteString s ':'
  if i < 0 then addrErr "missing port in address"
  else
    let finish (host : List Char) (j k : Int) : Except AddrError (String × String) :=
      if IndexByteString (slice s j s.length) '[' ≥ 0 then
        addrErr "unexpected '[' in address"
      else if IndexByteString (slice s k s.length) ']' ≥ 0 then
        addrErr "unexpected ']' in address"
      else .ok (String.mk host, String.mk (slice s (i + 1) s.length))
    if s.head? = some '[' then
      let «end» := IndexByteString s ']'
      if «end» < 0 then addrErr "missing ']' in address"
      else if «end» + 1 = s.length then addrErr "missing port in address"
      else if «end» + 1 = i then finish (slice s 1 «end») 1 («end» + 1)
      else if s.getD («end» + 1).toNat ' ' = ':' then addrErr "too many colons in address"
      else addrErr "missing port in address"
    else
      let host := slice s 0 i
      if IndexByteString host ':' ≥ 0 then addrErr "too many colons in address"
      else finish host 0 0

/-! ## `caddyfile.Dispenser` -/

/-- Caddy's `caddyfile.Dispenser`: the token texts and the cursor. -/
structure Dispenser where
  tokens : List String
  cursor : Int
  deriving DecidableEq, Repr

/-- Caddy's `caddyfile.NewDispenser`: the cursor starts before the first token. -/
def NewDispenser (tokens : List String) : Dispenser :=
  { tokens := tokens, cursor := -1 }

/-- Caddy's `Dispenser.Next`: advance to the next token if there is one. -/
def Dispenser.Next (d : Dispenser) : Bool × Dispenser :=
  if d.cursor < (d.tokens.length : Int) - 1 then (true, { d with cursor := d.cursor + 1 })
  else (false, d)

/-- Caddy's `Dispenser.Val`: the text of the current token. -/
def Dispenser.Val (d : Dispenser) : String :=
  if d.cursor < 0 ∨ d.cursor ≥ (d.tokens.length : Int) then ""
  else d.tokens.getD d.cursor.toNat ""

/-- The number of tokens after the cursor. -/
def Dispenser.remaining (d : Dispenser) : Nat :=
  ((d.tokens.length : Int) - 1 - d.cursor).toNat

/-! ## The module -/

/-- Caddy's `caddy.Context`, as far as `Provision` reads it. -/
structure Context where
  logger : Logger
  deriving DecidableEq, Repr

/-- Caddy's `Context.Logger`. -/
def Context.Logger (ctx : Context) : Logger := ctx.logger

/-- The Go struct `Fail2Ban`; `B` is the type `Banlist`. -/
structure Fail2Ban (B : Type) where
  Banfile : String
  logger : Logger
  banlist : B

variable {B : Type}

/-- The Go method `Fail2Ban.Provision`: the returned error (`none` is `nil`)
and the module afterwards.  `NewBanlist` and `Start` stand for the functions
of the `Banlist` type. -/
def Fail2Ban.Provision (NewBanlist : Context → Logger → String → B) (Start : B → B)
    (m : Fail2Ban B) (ctx : Context) : Option String × Fail2Ban B :=
  let m := { m with logger := ctx.Logger }
  let m := { m with banlist := NewBanlist ctx m.logger m.Banfile }
  let m := { m with banlist := Start m.banlist }
  (none, m)

/-- The tail of `Fail2Ban.Match`, from `m.logger.Info(remote_ip)` on, once
`remote_ip` has its final value. -/
def Fail2Ban.Match.verdict (IsBanned : B → String → Bool) (m : Fail2Ban B) (req : Request)
    (remote_ip : String) : Bool × List Entry :=
  let log := [Entry.mk .info remote_ip []]
  if remote_ip = "" then
    (true, log ++ [Entry.mk .error "No remote address found in headers or RemoteAddr" []])
  else if req.Header.has "X-Caddy-Ban" then
    (true, log ++ [Entry.mk .info "banned IP" [("remote_addr", remote_ip)]])
  else if IsBanned m.banlist remote_ip = true then
    (true, log ++ [Entry.mk .info "banned IP" [("remote_addr", remote_ip)]])
  else
    (false, log ++ [Entry.mk .debug "received request" [("remote_addr", remote_ip)]])

/-- The Go method `Fail2Ban.Match`: the verdict and the log calls made.
`split` stands for `net.SplitHostPort`, `IsBanned` for `Banlist.IsBanned`. -/
def Fail2Ban.Match (split : String → Except AddrError (String × String))
    (IsBanned : B → String → Bool) (m : Fail2Ban B) (req : Request) : Bool × List Entry :=
  let remote_ip := req.Header.Get "CF-Connecting-IP"
  let remote_ip := if remote_ip = "" then req.Header.Get "X-Forwarded-For" else remote_ip
  if remote_ip = "" then
    match split req.RemoteAddr with
    | .error err =>
      (true, [Entry.mk .error "Error parsing remote addr into IP & port"
                [("remote_addr", req.RemoteAddr), ("error", err.Error)]])
    | .ok (host, _) => Fail2Ban.Match.verdict IsBanned m req host
  else
    Fail2Ban.Match.verdict IsBanned m req remote_ip

/-- The Go method `Fail2Ban.UnmarshalCaddyfile`: the returned error (`none` is
`nil`), the module and the dispenser afterwards. -/
def Fail2Ban.UnmarshalCaddyfile (m : Fail2Ban B) (d : Dispenser) :
    Option String × Fail2Ban B × Dispenser :=
  match h : d.Next with
  | (false, d1) => (none, m, d1)
  | (true, d1) =>
    let v := d1.Val
    if v = "fail2ban" then
      match h2 : d1.Next with
      | (false, d2) => (some "fail2ban expects file path, value is missing", m, d2)
      | (true, d2) => Fail2Ban.UnmarshalCaddyfile { m with Banfile := d2.Val } d2
    else
      (some ("unknown config value: " ++ v), m, d1)
termination_by d.remaining
decreasing_by
  simp only [Dispenser.Next] at h h2
  split at h <;> simp only [Prod.mk.injEq, true_and, Bool.false_eq_true, false_and] at h
  split at h2 <;> simp only [Prod.mk.injEq, true_and, Bool.false_eq_true, false_and] at h2
  subst h h2
  simp only [Dispenser.remaining] at *
  omega

/-- The loop of `UnmarshalCaddyfile` read off the tokens after the cursor:
the returned error and the final value of `Banfile`, given its value so far. -/
def unmarshalTokens : List String → String → Option String × String
  | [], banfile => (none, banfile)
  | [v], banfile =>
    if v = "fail2ban" then (some "fail2ban expects file path, value is missing", banfile)
    else (some ("unknown config value: " ++ v), banfile)
  | v :: p :: rest, banfile =>
    if v = "fail2ban" then unmarshalTokens rest p
    else (some ("unknown config value: " ++ v), banfile)

/-! ## Definitions that follow the specification's words -/

/-- The candidate address as the specification words it: the first non-empty
value among the first `CF-Connecting-IP` value, the first `X-Forwarded-For`
value and the host part of `RemoteAddr` when it splits. -/
def candidateAddress (split : String → Except AddrError (String × String))
    (req : Request) : Option String :=
  ([req.Header.Get "CF-Connecting-IP", req.Header.Get "X-Forwarded-For"] ++
    (match split req.RemoteAddr with
      | .ok (host, _) => [host]
      | .error _ => [])).find? (fun a => a ≠ "")

/-- The token sequence made of one complete `fail2ban <path>` pair for each
path of the list, in order. -/
def directives : List String → List String
  | [] => []
  | p :: ps => "fail2ban" :: p :: directives ps

/-- Modelled from the spec: `Banlist.IsBanned`, which is not among the sources
at hand; the banned set is a list of address literals and the query is exact
membership of the string.  Used for concrete requests only. -/
def BannedSet.IsBanned (banned : List String) (address : String) : Bool :=
  banned.contains address

/-! ## Concrete requests and modules -/

/-- A module with the given banned set, provisioned. -/
def moduleWith (banned : List String) : Fail2Ban (List String) :=
  { Banfile := "/etc/caddy/banned", logger := ⟨"http.matchers.fail2ban"⟩, banlist := banned }

/-- No proxy header, a peer address without a port. -/
def reqUnparsable : Request :=
  { Header := [("User-Agent", ["curl"])], RemoteAddr := "garbage" }

/-- The override header with an empty value list. -/
def reqOverride : Request :=
  { Header := [("X-Caddy-Ban", [])], RemoteAddr := "9.9.9.9:4711" }

/-- Both proxy headers set, a peer address without a port. -/
def reqProxied : Request :=
  { Header := [("Cf-Connecting-Ip", ["1.2.3.4"]), ("X-Forwarded-For", ["5.6.7.8"])],
    RemoteAddr := "garbage" }

/-- No proxy header, a peer address with an empty host. -/
def reqEmptyHost : Request :=
  { Header := [], RemoteAddr := ":8080" }

/-- No proxy header, a well-formed peer address. -/
def reqPeer : Request :=
  { Header := [], RemoteAddr := "9.9.9.9:4711" }

/-! ## Facts about the dispenser -/

theorem Dispenser.Next_nil (pre : List String) :
    (Dispenser.mk pre ((pre.length : Int) - 1)).Next
      = (false, Dispenser.mk pre ((pre.length : Int) - 1)) := by
  simp [Dispenser.Next]

theorem Dispenser.Next_cons (pre : List String) (v : String) (rest : List String) :
    (Dispenser.mk (pre ++ v :: rest) ((pre.length : Int) - 1)).Next
      = (true, Dispenser.mk (pre ++ v :: rest) (pre.length : Int)) := by
  simp [Dispenser.Next]

theorem Dispenser.Val_cons (pre : List String) (v : String) (rest : List String) :
    (Dispenser.mk (pre ++ v :: rest) (pre.length : Int)).Val = v := by
  have h : ¬ ((pre.length : Int) < 0 ∨ (rest.length : Int) + 1 ≤ 0) := by omega
  simp only [Dispenser.Val, h, if_false, Int.toNat_ofNat, List.getD_eq_getElem?_getD]
  rw [List.getElem?_append_right (Nat.le_refl _)]
  simp

theorem UnmarshalCaddyfile_aux (n : Nat) :
    ∀ (rest pre : List String) (m : Fail2Ban B), rest.length ≤ n →
      (m.UnmarshalCaddyfile (Dispenser.mk (pre ++ rest) ((pre.length : Int) - 1))).1
          = (unmarshalTokens rest m.Banfile).1 ∧
      (m.UnmarshalCaddyfile (Dispenser.mk (pre ++ rest) ((pre.length : Int) - 1))).2.1
          = { m with Banfile := (unmarshalTokens rest m.Banfile).2 } := by
  induction n using Nat.strong_induction_on with
  | _ n ih =>
    intro rest pre m hn
    rw [Fail2Ban.UnmarshalCaddyfile]
    match rest with
    | [] =>
      split
      · simp [unmarshalTokens]
      · rename_i d1 h
        simp [Dispenser.Next] at h
    | [v] =>
      split
      · rename_i d1 h
        rw [Dispenser.Next_cons] at h
        simp at h
      · rename_i d1 h
        rw [Dispenser.Next_cons] at h
        simp only [Prod.mk.injEq, true_and] at h
        subst h
        simp only [Dispenser.Val_cons]
        by_cases hv : v = "fail2ban"
        · simp only [hv, if_true]
          split
          · simp [unmarshalTokens]
          · rename_i d2 h2
            simp [Dispenser.Next] at h2
        · simp [hv, unmarshalTokens]
    | v :: p :: rest =>
      split
      · rename_i d1 h
        rw [Dispenser.Next_cons] at h
        simp at h
      · rename_i d1 h
        rw [Dispenser.Next_cons] at h
        simp only [Prod.mk.injEq, true_and] at h
        subst h
        simp only [Dispenser.Val_cons]
        by_cases hv : v = "fail2ban"
        · subst hv
          simp only [if_true]
          have e : (Dispenser.mk (pre ++ "fail2ban" :: p :: rest) (pre.length : Int)).Next
              = (true, Dispenser.mk ((pre ++ ["fail2ban", p]) ++ rest)
                  (((pre ++ ["fail2ban", p]).length : Int) - 1)) := by
            simp only [Dispenser.Next, List.length_append, List.length_cons, List.length_nil,
              List.append_assoc, List.cons_append, List.nil_append]
            push_cast
            rw [if_pos (by omega)]
            simp only [Prod.mk.injEq, true_and, Dispenser.mk.injEq]
            omega
          split
          · rename_i d2 h2
            rw [e] at h2
            simp at h2
          · rename_i d2 h2
            rw [e] at h2
            simp only [Prod.mk.injEq, true_and] at h2
            subst h2
            have hval : (Dispenser.mk ((pre ++ ["fail2ban", p]) ++ rest)
                (((pre ++ ["fail2ban", p]).length : Int) - 1)).Val = p := by
              have hc : (((pre ++ ["fail2ban", p]).length : Int) - 1)
                  = ((pre ++ ["fail2ban"]).length : Int) := by
                simp only [List.length_append, List.length_cons, List.length_nil]
                push_cast
                omega
              have ht : (pre ++ ["fail2ban", p]) ++ rest = (pre ++ ["fail2ban"]) ++ p :: rest := by
                simp
              rw [hc, ht]
              exact Dispenser.Val_cons _ _ _
            rw [hval]
            have hlt : rest.length < n := by
              simp only [List.length_cons] at hn
              omega
            have := ih rest.length hlt rest (pre ++ ["fail2ban", p])
              { m with Banfile := p } (Nat.le_refl _)
            simpa [unmarshalTokens] using this
        · simp [hv, unmarshalTokens]

theorem UnmarshalCaddyfile_NewDispenser (tokens : List String) (m : Fail2Ban B) :
    (m.UnmarshalCaddyfile (NewDispenser tokens)).1 = (unmarshalTokens tokens m.Banfile).1 ∧
    (m.UnmarshalCaddyfile (NewDispenser tokens)).2.1
      = { m with Banfile := (unmarshalTokens tokens m.Banfile).2 } := by
  have h := UnmarshalCaddyfile_aux tokens.length tokens [] m (Nat.le_refl _)
  simpa [NewDispenser] using h

/-! ## Facts about the token loop -/

theorem getLast?_getD_cons (p : String) (ps : List String) (banfile : String) :
    ((p :: ps).getLast?).getD banfile = (ps.getLast?).getD p := by
  rw [List.getLast?_cons]
  rfl

theorem unmarshalTokens_directives (ps : List String) :
    ∀ (rest : List String) (banfile : String),
      unmarshalTokens (directives ps ++ rest) banfile
        = unmarshalTokens rest ((ps.getLast?).getD banfile) := by
  induction ps with
  | nil => intro rest banfile; simp [directives]
  | cons p ps ih =>
    intro rest banfile
    rw [getLast?_getD_cons]
    simp only [directives, List.cons_append, unmarshalTokens, if_true]
    exact ih rest p

theorem tokens_two_step {P : List String → Prop} (h0 : P [])
    (h1 : ∀ v, P [v]) (h2 : ∀ v p rest, P rest → P (v :: p :: rest)) :
    ∀ ts, P ts := by
  have key : ∀ ts, P ts ∧ ∀ v, P (v :: ts) := by
    intro ts
    induction ts with
    | nil => exact ⟨h0, h1⟩
    | cons p rest ih => exact ⟨ih.2 p, fun v => h2 v p rest ih.1⟩
  exact fun ts => (key ts).1

/-- Every token sequence is a run of complete pairs followed by a remainder
that is empty, a lone `fail2ban`, or starts with another token. -/
theorem tokens_decompose (ts : List String) :
    ∃ ps rest, ts = directives ps ++ rest ∧
      (rest = [] ∨ rest = ["fail2ban"] ∨ ∃ t tl, rest = t :: tl ∧ t ≠ "fail2ban") := by
  induction ts using tokens_two_step with
  | h0 => exact ⟨[], [], rfl, Or.inl rfl⟩
  | h1 v =>
    by_cases hv : v = "fail2ban"
    · exact ⟨[], [v], rfl, Or.inr (Or.inl (by rw [hv]))⟩
    · exact ⟨[], [v], rfl, Or.inr (Or.inr ⟨v, [], rfl, hv⟩)⟩
  | h2 v p rest ih =>
    by_cases hv : v = "fail2ban"
    · obtain ⟨ps, rest1, hts, hrest⟩ := ih
      refine ⟨p :: ps, rest1, ?_, hrest⟩
      simp [directives, hv, hts]
    · exact ⟨[], v :: p :: rest, rfl, Or.inr (Or.inr ⟨v, p :: rest, rfl, hv⟩)⟩

theorem unmarshalTokens_missing (banfile : String) :
    unmarshalTokens ["fail2ban"] banfile
      = (some "fail2ban expects file path, value is missing", banfile) := by
  simp [unmarshalTokens]

theorem unmarshalTokens_unknown (t : String) (tl : List String) (banfile : String)
    (ht : t ≠ "fail2ban") :
    unmarshalTokens (t :: tl) banfile = (some ("unknown config value: " ++ t), banfile) := by
  cases tl <;> simp [unmarshalTokens, ht]

theorem unmarshalTokens_nil_iff (ts : List String) (banfile : String) :
    (unmarshalTokens ts banfile).1 = none ↔ ∃ ps, ts = directives ps := by
  constructor
  · intro h
    obtain ⟨ps, rest, hts, hrest⟩ := tokens_decompose ts
    rw [hts, unmarshalTokens_directives] at h
    rcases hrest with hr | hr | ⟨t, tl, hr, ht⟩
    · exact ⟨ps, by rw [hts, hr, List.append_nil]⟩
    · rw [hr, unmarshalTokens_missing] at h
      simp at h
    · rw [hr, unmarshalTokens_unknown t tl _ ht] at h
      simp at h
  · rintro ⟨ps, rfl⟩
    have := unmarshalTokens_directives ps [] banfile
    rw [List.append_nil] at this
    rw [this]
    simp [unmarshalTokens]

/-! ## The matcher -/

theorem candidateAddress_ne_empty (split : String → Except AddrError (String × String))
    (req : Request) (a : String) (h : candidateAddress split req = some a) : a ≠ "" := by
  have := List.find?_some h
  simpa using this

theorem Match_eq_candidate (split : String → Except AddrError (String × String))
    (IsBanned : B → String → Bool) (m : Fail2Ban B) (req : Request) :
    (m.Match split IsBanned req).1 =
      match candidateAddress split req with
      | some a => req.Header.has "X-Caddy-Ban" || IsBanned m.banlist a
      | none => true := by
  unfold candidateAddress Fail2Ban.Match Fail2Ban.Match.verdict
  by_cases hcf : req.Header.Get "CF-Connecting-IP" = ""
  · by_cases hxff : req.Header.Get "X-Forwarded-For" = ""
    · cases hs : split req.RemoteAddr with
      | error e => simp [hcf, hxff, List.find?]
      | ok hp =>
        obtain ⟨host, port⟩ := hp
        by_cases hh : host = ""
        · simp [hcf, hxff, hh, List.find?]
        · cases hb : IsBanned m.banlist host <;>
            cases hx : req.Header.has "X-Caddy-Ban" <;>
              simp [hcf, hxff, hh, hb, hx, List.find?]
    · cases hb : IsBanned m.banlist (req.Header.Get "X-Forwarded-For") <;>
        cases hx : req.Header.has "X-Caddy-Ban" <;>
          simp [hcf, hxff, hb, hx, List.find?]
  · cases hb : IsBanned m.banlist (req.Header.Get "CF-Connecting-IP") <;>
      cases hx : req.Header.has "X-Caddy-Ban" <;>
        simp [hcf, hb, hx, List.find?]

/-- C1. Fail-closed on an unparsable peer address: when the `CF-Connecting-IP`
and `X-Forwarded-For` values are both empty and `RemoteAddr` does not split
into host and port, `Match` returns true, for every banlist and every header
map. -/
theorem Match_fail_closed (split : String → Except AddrError (String × String))
    (IsBanned : B → String → Bool) (m : Fail2Ban B) (req : Request) (e : AddrError)
    (hcf : req.Header.Get "CF-Connecting-IP" = "")
    (hxff : req.Header.Get "X-Forwarded-For" = "")
    (hsplit : split req.RemoteAddr = .error e) :
    (m.Match split IsBanned req).1 = true := by
  simp [Fail2Ban.Match, hcf, hxff, hsplit]

theorem Match_fail_closed_witness :
    reqUnparsable.Header.Get "CF-Connecting-IP" = "" ∧
    reqUnparsable.Header.Get "X-Forwarded-For" = "" ∧
    SplitHostPort reqUnparsable.RemoteAddr = .error ⟨"missing port in address", "garbage"⟩ ∧
    ((moduleWith []).Match SplitHostPort BannedSet.IsBanned reqUnparsable).1 = true :=
  ⟨by decide, by decide, rfl,
    Match_fail_closed SplitHostPort BannedSet.IsBanned (moduleWith []) reqUnparsable
      ⟨"missing port in address", "garbage"⟩ (by decide) (by decide) rfl⟩

/-- C2. Unconditional override: when the header map contains the key
`X-Caddy-Ban`, with any value list, `Match` returns true for every banlist,
every `IsBanned` and every combination of the address sources. -/
theorem Match_override (split : String → Except AddrError (String × String))
    (IsBanned : B → String → Bool) (m : Fail2Ban B) (req : Request)
    (hban : req.Header.has "X-Caddy-Ban" = true) :
    (m.Match split IsBanned req).1 = true := by
  unfold Fail2Ban.Match Fail2Ban.Match.verdict
  simp only [hban]
  repeat' split
  all_goals simp_all

theorem Match_override_witness :
    reqOverride.Header.has "X-Caddy-Ban" = true ∧
    ((moduleWith []).Match SplitHostPort BannedSet.IsBanned reqOverride).1 = true :=
  ⟨by decide,
    Match_override SplitHostPort BannedSet.IsBanned (moduleWith []) reqOverride (by decide)⟩

/-- C3. Address precedence: without the `X-Caddy-Ban` header, when the first
non-empty value `a` among the `CF-Connecting-IP` value, the `X-Forwarded-For`
value and the host part of a splitting `RemoteAddr` exists, `Match` returns
`IsBanned a` on that exact string; a non-empty `CF-Connecting-IP` value
decides alone, whatever the other two sources are, and so does a non-empty
`X-Forwarded-For` value under an empty `CF-Connecting-IP` value. -/
theorem Match_address_precedence (split : String → Except AddrError (String × String))
    (IsBanned : B → String → Bool) (m : Fail2Ban B) (req : Request)
    (hban : req.Header.has "X-Caddy-Ban" = false) :
    (∀ a, candidateAddress split req = some a →
      (m.Match split IsBanned req).1 = IsBanned m.banlist a) ∧
    (req.Header.Get "CF-Connecting-IP" ≠ "" →
      (m.Match split IsBanned req).1
        = IsBanned m.banlist (req.Header.Get "CF-Connecting-IP")) ∧
    (req.Header.Get "CF-Connecting-IP" = "" → req.Header.Get "X-Forwarded-For" ≠ "" →
      (m.Match split IsBanned req).1
        = IsBanned m.banlist (req.Header.Get "X-Forwarded-For")) := by
  refine ⟨?_, ?_, ?_⟩
  · intro a ha
    unfold candidateAddress at ha
    unfold Fail2Ban.Match Fail2Ban.Match.verdict
    simp only [hban]
    by_cases hcf : req.Header.Get "CF-Connecting-IP" = ""
    · by_cases hxff : req.Header.Get "X-Forwarded-For" = ""
      · cases hs : split req.RemoteAddr with
        | error e => simp [hcf, hxff, hs, List.find?] at ha
        | ok hp =>
          obtain ⟨host, port⟩ := hp
          by_cases hh : host = ""
          · simp [hcf, hxff, hs, hh, List.find?] at ha
          · simp [hcf, hxff, hs, hh, List.find?] at ha
            subst ha
            cases hb : IsBanned m.banlist host <;> simp [hcf, hxff, hh, hb]
      · simp [hcf, hxff, List.find?] at ha
        subst ha
        cases hb : IsBanned m.banlist (req.Header.Get "X-Forwarded-For") <;>
          simp [hcf, hxff, hb]
    · simp [hcf, List.find?] at ha
      subst ha
      cases hb : IsBanned m.banlist (req.Header.Get "CF-Connecting-IP") <;> simp [hcf, hb]
  · intro hcf
    unfold Fail2Ban.Match Fail2Ban.Match.verdict
    cases hb : IsBanned m.banlist (req.Header.Get "CF-Connecting-IP") <;>
      simp [hcf, hban, hb]
  · intro hcf hxff
    unfold Fail2Ban.Match Fail2Ban.Match.verdict
    cases hb : IsBanned m.banlist (req.Header.Get "X-Forwarded-For") <;>
      simp [hcf, hxff, hban, hb]

theorem Match_address_precedence_witness :
    reqProxied.Header.has "X-Caddy-Ban" = false ∧
    candidateAddress SplitHostPort reqProxied = some "1.2.3.4" ∧
    ((moduleWith ["5.6.7.8"]).Match SplitHostPort BannedSet.IsBanned reqProxied).1
      = BannedSet.IsBanned (moduleWith ["5.6.7.8"]).banlist "1.2.3.4" ∧
    ((moduleWith ["1.2.3.4"]).Match SplitHostPort BannedSet.IsBanned reqProxied).1
      = BannedSet.IsBanned (moduleWith ["1.2.3.4"]).banlist "1.2.3.4" :=
  ⟨by decide, by decide,
    (Match_address_precedence SplitHostPort BannedSet.IsBanned (moduleWith ["5.6.7.8"])
      reqProxied (by decide)).1 "1.2.3.4" (by decide),
    (Match_address_precedence SplitHostPort BannedSet.IsBanned (moduleWith ["1.2.3.4"])
      reqProxied (by decide)).2.1 (by decide)⟩

/-- C7. The code at a request the claim covers: the address "9.9.9.9" is
determined from `RemoteAddr`, the header map has no `X-Caddy-Ban` key, the
address is banned, and `Match` returns true, against the comment "Only ban if
header X-Caddy-Ban is sent". -/
theorem Match_banned_without_header :
    candidateAddress SplitHostPort reqPeer = some "9.9.9.9" ∧
    reqPeer.Header.has "X-Caddy-Ban" = false ∧
    BannedSet.IsBanned (moduleWith ["9.9.9.9"]).banlist "9.9.9.9" = true ∧
    ((moduleWith ["9.9.9.9"]).Match SplitHostPort BannedSet.IsBanned reqPeer).1 = true := by
  decide

/-- C9. Deny by default on an empty host: with empty `CF-Connecting-IP` and
`X-Forwarded-For` values and a `RemoteAddr` that splits into an empty host and
a port, `Match` returns true whatever `IsBanned` answers; and `Match` returns
false only when a non-empty address `a` was derived, `X-Caddy-Ban` is absent
and `IsBanned a` is false. -/
theorem Match_deny_by_default (split : String → Except AddrError (String × String))
    (IsBanned : B → String → Bool) (m : Fail2Ban B) (req : Request) :
    (∀ port, req.Header.Get "CF-Connecting-IP" = "" →
      req.Header.Get "X-Forwarded-For" = "" →
      split req.RemoteAddr = .ok ("", port) →
      (m.Match split IsBanned req).1 = true) ∧
    ((m.Match split IsBanned req).1 = false →
      ∃ a, candidateAddress split req = some a ∧ a ≠ "" ∧
        req.Header.has "X-Caddy-Ban" = false ∧ IsBanned m.banlist a = false) := by
  constructor
  · intro port hcf hxff hs
    simp [Fail2Ban.Match, Fail2Ban.Match.verdict, hcf, hxff, hs]
  · intro hfalse
    rw [Match_eq_candidate] at hfalse
    cases hc : candidateAddress split req with
    | none => simp [hc] at hfalse
    | some a =>
      simp only [hc, Bool.or_eq_false_iff] at hfalse
      exact ⟨a, rfl, candidateAddress_ne_empty split req a hc, hfalse.1, hfalse.2⟩

theorem Match_deny_by_default_witness :
    (SplitHostPort reqEmptyHost.RemoteAddr = .ok ("", "8080") ∧
      ((moduleWith []).Match SplitHostPort BannedSet.IsBanned reqEmptyHost).1 = true) ∧
    (((moduleWith ["1.2.3.4"]).Match SplitHostPort BannedSet.IsBanned reqPeer).1 = false ∧
      ∃ a, candidateAddress SplitHostPort reqPeer = some a ∧ a ≠ "" ∧
        reqPeer.Header.has "X-Caddy-Ban" = false ∧
        BannedSet.IsBanned (moduleWith ["1.2.3.4"]).banlist a = false) :=
  ⟨⟨rfl, (Match_deny_by_default SplitHostPort BannedSet.IsBanned (moduleWith [])
      reqEmptyHost).1 "8080" (by decide) (by decide) rfl⟩,
    ⟨by decide, (Match_deny_by_default SplitHostPort BannedSet.IsBanned (moduleWith ["1.2.3.4"])
      reqPeer).2 (by decide)⟩⟩

/-! ## The configuration entry point -/

/-- C4, as stated, fails: a repeated directive is accepted, so the call
returns nil, with `Banfile` set to the second path, on a sequence that is not
`fail2ban` followed by one path. -/
theorem UnmarshalCaddyfile_one_parameter_counterexample :
    ((moduleWith []).UnmarshalCaddyfile
        (NewDispenser ["fail2ban", "/a", "fail2ban", "/b"])).1 = none ∧
    ((moduleWith []).UnmarshalCaddyfile
        (NewDispenser ["fail2ban", "/a", "fail2ban", "/b"])).2.1.Banfile = "/b" ∧
    ¬ ∃ p, ["fail2ban", "/a", "fail2ban", "/b"] = ["fail2ban", p] := by
  have h := UnmarshalCaddyfile_NewDispenser ["fail2ban", "/a", "fail2ban", "/b"]
    (moduleWith [])
  rw [h.1, h.2]
  refine ⟨rfl, rfl, ?_⟩
  simp

/-- C4, amended. `UnmarshalCaddyfile` returns nil exactly on the token
sequences made of zero or more complete `fail2ban <path>` pairs; every other
sequence (a different leading token, an extra token that is not `fail2ban`
after a path, a final `fail2ban` without a path) makes it return an error.
On such a run of pairs the last path wins: `Banfile` afterwards is the path
of the last pair, or its value before the call when the run is empty, and the
logger and the banlist are unchanged. -/
theorem UnmarshalCaddyfile_nil_iff (tokens : List String) (m : Fail2Ban B) :
    ((m.UnmarshalCaddyfile (NewDispenser tokens)).1 = none ↔
      ∃ ps, tokens = directives ps) ∧
    ∀ ps : List String,
      (m.UnmarshalCaddyfile (NewDispenser (directives ps))).1 = none ∧
      (m.UnmarshalCaddyfile (NewDispenser (directives ps))).2.1.Banfile
        = (ps.getLast?).getD m.Banfile ∧
      (m.UnmarshalCaddyfile (NewDispenser (directives ps))).2.1.logger = m.logger ∧
      (m.UnmarshalCaddyfile (NewDispenser (directives ps))).2.1.banlist = m.banlist := by
  constructor
  · rw [(UnmarshalCaddyfile_NewDispenser tokens m).1]
    exact unmarshalTokens_nil_iff tokens m.Banfile
  · intro ps
    have h := UnmarshalCaddyfile_NewDispenser (directives ps) m
    have hd := unmarshalTokens_directives ps [] m.Banfile
    rw [List.append_nil] at hd
    rw [h.1, h.2, hd]
    simp [unmarshalTokens]

/-- C5. A missing file path is a configuration error: on any run of complete
`fail2ban <path>` pairs followed by a final `fail2ban`, the lone `fail2ban`
included, `UnmarshalCaddyfile` returns the error
"fail2ban expects file path, value is missing". -/
theorem UnmarshalCaddyfile_missing_path (ps : List String) (m : Fail2Ban B) :
    (m.UnmarshalCaddyfile (NewDispenser (directives ps ++ ["fail2ban"]))).1
      = some "fail2ban expects file path, value is missing" := by
  rw [(UnmarshalCaddyfile_NewDispenser _ m).1, unmarshalTokens_directives,
    unmarshalTokens_missing]

/-- C6. Successful configuration stores the path: on the tokens `fail2ban`,
`p` the call returns nil and leaves the module with `Banfile = p`, the logger
and the banlist unchanged. -/
theorem UnmarshalCaddyfile_stores_path (p : String) (m : Fail2Ban B) :
    (m.UnmarshalCaddyfile (NewDispenser ["fail2ban", p])).1 = none ∧
    (m.UnmarshalCaddyfile (NewDispenser ["fail2ban", p])).2.1.Banfile = p ∧
    (m.UnmarshalCaddyfile (NewDispenser ["fail2ban", p])).2.1.logger = m.logger ∧
    (m.UnmarshalCaddyfile (NewDispenser ["fail2ban", p])).2.1.banlist = m.banlist := by
  have h := UnmarshalCaddyfile_NewDispenser ["fail2ban", p] m
  rw [h.1, h.2]
  simp [unmarshalTokens]

/-- C10, as stated, fails: on `fail2ban`, "/p", "bogus" the call returns an
error and leaves `Banfile` set to "/p", not to its value before the call. -/
theorem UnmarshalCaddyfile_atomic_counterexample :
    ((moduleWith []).UnmarshalCaddyfile (NewDispenser ["fail2ban", "/p", "bogus"])).1
      = some "unknown config value: bogus" ∧
    ((moduleWith []).UnmarshalCaddyfile (NewDispenser ["fail2ban", "/p", "bogus"])).2.1.Banfile
      = "/p" ∧
    (moduleWith []).Banfile ≠ "/p" := by
  have h := UnmarshalCaddyfile_NewDispenser ["fail2ban", "/p", "bogus"] (moduleWith [])
  rw [h.1, h.2]
  refine ⟨rfl, rfl, by decide⟩

/-- C10, amended. When `UnmarshalCaddyfile` returns an error, the tokens are a
run of complete `fail2ban <path>` pairs followed by the failing remainder (a
lone `fail2ban`, or a token other than `fail2ban`), and `Banfile` afterwards
is the path of the last of these pairs, or its value before the call when
there is no such pair. -/
theorem UnmarshalCaddyfile_error_banfile (tokens : List String) (m : Fail2Ban B)
    (herr : (m.UnmarshalCaddyfile (NewDispenser tokens)).1 ≠ none) :
    ∃ ps rest, tokens = directives ps ++ rest ∧
      (rest = ["fail2ban"] ∨ ∃ t tl, rest = t :: tl ∧ t ≠ "fail2ban") ∧
      (m.UnmarshalCaddyfile (NewDispenser tokens)).2.1.Banfile
        = (ps.getLast?).getD m.Banfile := by
  have h := UnmarshalCaddyfile_NewDispenser tokens m
  rw [h.1] at herr
  rw [h.2]
  obtain ⟨ps, rest, hts, hrest⟩ := tokens_decompose tokens
  subst hts
  rw [unmarshalTokens_directives] at herr ⊢
  rcases hrest with hr | hr | ⟨t, tl, hr, ht⟩
  · subst hr
    simp [unmarshalTokens] at herr
  · subst hr
    exact ⟨ps, ["fail2ban"], rfl, Or.inl rfl, by rw [unmarshalTokens_missing]⟩
  · subst hr
    exact ⟨ps, t :: tl, rfl, Or.inr ⟨t, tl, rfl, ht⟩,
      by rw [unmarshalTokens_unknown t tl _ ht]⟩

theorem UnmarshalCaddyfile_error_banfile_witness :
    ((moduleWith []).UnmarshalCaddyfile (NewDispenser ["fail2ban", "/p", "bogus"])).1 ≠ none ∧
    ∃ ps rest, ["fail2ban", "/p", "bogus"] = directives ps ++ rest ∧
      (rest = ["fail2ban"] ∨ ∃ t tl, rest = t :: tl ∧ t ≠ "fail2ban") ∧
      ((moduleWith []).UnmarshalCaddyfile
          (NewDispenser ["fail2ban", "/p", "bogus"])).2.1.Banfile
        = (ps.getLast?).getD (moduleWith []).Banfile :=
  have herr : ((moduleWith []).UnmarshalCaddyfile
      (NewDispenser ["fail2ban", "/p", "bogus"])).1 ≠ none := by
    rw [(UnmarshalCaddyfile_NewDispenser _ _).1]
    simp [unmarshalTokens]
  ⟨herr, UnmarshalCaddyfile_error_banfile ["fail2ban", "/p", "bogus"] (moduleWith []) herr⟩

/-! ## Provisioning -/

/-- C8. Provisioning never fails because of the ban list: for every `Banfile`,
every `NewBanlist` and every `Start`, whatever the outcome `o` of its initial
load, `Provision` returns nil, and the banlist it leaves is the one
`NewBanlist` built from the context's logger and `Banfile` with `Start`
applied to it once; with a banlist that counts its `Start` calls, the count
is one. -/
theorem Provision_returns_nil {Outcome : Type}
    (NewBanlist : Context → Logger → String → B) (Start : Outcome → B → B) (o : Outcome)
    (m : Fail2Ban B) (ctx : Context) :
    (m.Provision NewBanlist (Start o) ctx).1 = none ∧
    (m.Provision NewBanlist (Start o) ctx).2.banlist
      = Start o (NewBanlist ctx ctx.Logger m.Banfile) ∧
    (m.Provision NewBanlist (Start o) ctx).2.logger = ctx.Logger ∧
    (m.Provision NewBanlist (Start o) ctx).2.Banfile = m.Banfile ∧
    ∀ k : Nat,
      ((Fail2Ban.mk m.Banfile m.logger (m.banlist, k)).Provision
          (fun c l f => (NewBanlist c l f, 0))
          (fun b => (Start o b.1, b.2 + 1)) ctx).2.banlist
        = (Start o (NewBanlist ctx ctx.Logger m.Banfile), 1) :=
  ⟨rfl, rfl, rfl, rfl, fun _ => rfl⟩

end caddy_fail2ban
